import Mathlib

/-!
Verification development for the mcp-microsoft repository (Go).

The development shallowly embeds the core logic of the repository:
the Go `interface\x7b\x7d` attribute values become the inductive `GoVal`,
Go maps written by `m[k] = v` become the functional map `GoMap`,
the per-resource converters (`convertSiteToMap`, `convertUserToMap`,
`convertSitePageToMap`) and the paginated aggregation loops of
`users.Get` / `applications.Get` / `sites.Get` become explicit folds,
and `htmlToMarkdown` becomes a stage-by-stage string pipeline where
each Go regular-expression substitution is reproduced by a hand-rolled
scanner with the same leftmost, non-overlapping match semantics
(`[^>]*` runs to the first `>` character; the lazy group `(.*?)`
captures up to the first occurrence of the closing literal and, like
the Go `.`, never crosses a newline).
-/

/-- A dynamic Go value as stored in an attribute map.
`str` models a Go `string` (and, for the web-part backing store, a
dereferenced non-nil `*string`); `bool` a `bool`; `strList` a
`[]string`; `obj` an opaque non-nil provider object (analytics,
sharepointIds, publishing state, ...), tagged by a number; `map` a
nested `map[string]interface\x7b\x7d`; `null` the nil interface value. -/
inductive GoVal where
  | str (s : String)
  | bool (b : Bool)
  | strList (l : List String)
  | obj (tag : Nat)
  | map (m : List (String × GoVal))
  | null

/-- A Go `map[string]interface\x7b\x7d`, modelled extensionally as a
lookup function. `mapSet` models the assignment `m[k] = v`
(later writes win), `mapEmpty` models `make(map[string]...)`. -/
def GoMap : Type := String → Option GoVal

def mapEmpty : GoMap := fun _ => none

def mapSet (m : GoMap) (k : String) (v : GoVal) : GoMap :=
  fun k' => if k' = k then some v else m k'

/-- `setIfSome m k o` models the Go pattern
`if p := rec.GetField(); p != nil \x7b m[k] = conv(*p) \x7d`:
the write happens only when the field is present. -/
def setIfSome (m : GoMap) (k : String) (o : Option GoVal) : GoMap :=
  match o with
  | some v => mapSet m k v
  | none => m

/-- Apply a list of conditional field writes in order (each list entry
corresponds to one `if ... != nil \x7b m[...] = ... \x7d` statement of the
source, in source order). -/
def applyOptFields (fields : List (String × Option GoVal)) (m : GoMap) : GoMap :=
  fields.foldl (fun acc kv => setIfSome acc kv.1 kv.2) m

/-- Apply an additional-data bag: `for k, v := range additionalData \x7b m[k] = v \x7d`. -/
def applyAll (l : List (String × GoVal)) (m : GoMap) : GoMap :=
  l.foldl (fun acc kv => mapSet acc kv.1 kv.2) m

/-- A Microsoft Graph site record (`models.Siteable`), restricted to the
fields read by `convertSiteToMap`. Optional fields model nilable
getters; `additionalData` models `GetAdditionalData()`. -/
structure Site where
  id : Option String
  displayName : Option String
  isPersonalSite : Option Bool
  analytics : Option Nat
  errorInfo : Option Nat
  sharepointIds : Option Nat
  siteCollection : Option Nat
  additionalData : List (String × GoVal)

/-- The typed-field writes of `convertSiteToMap`, one entry per source
`if` statement, in source order. -/
def siteTypedFields (s : Site) : List (String × Option GoVal) :=
  [ ("id", s.id.map GoVal.str),
    ("displayName", s.displayName.map GoVal.str),
    ("isPersonalSite", s.isPersonalSite.map GoVal.bool),
    ("analytics", s.analytics.map GoVal.obj),
    ("error", s.errorInfo.map GoVal.obj),
    ("sharepointIds", s.sharepointIds.map GoVal.obj),
    ("siteCollection", s.siteCollection.map GoVal.obj) ]

/-- Embedding of `convertSiteToMap` (sites package): the identifier is
the dereferenced id or the zero value `""`; typed fields are written
first, then the additional data is written last to allow overrides. -/
def convertSiteToMap (s : Site) : String × GoMap :=
  (s.id.getD ("") , applyAll s.additionalData (applyOptFields (siteTypedFields s) mapEmpty))

/-- A site page record (`models.SitePageable`), restricted to the fields
read by `convertSitePageToMap`. -/
structure SitePage where
  id : Option String
  pageLayout : Option Nat
  publishingState : Option Nat
  title : Option String
  additionalData : List (String × GoVal)

/-- The typed-field writes of `convertSitePageToMap`, in source order. -/
def sitePageTypedFields (p : SitePage) : List (String × Option GoVal) :=
  [ ("id", p.id.map GoVal.str),
    ("pageLayout", p.pageLayout.map GoVal.obj),
    ("publishingState", p.publishingState.map GoVal.obj),
    ("title", p.title.map GoVal.str) ]

/-- Embedding of `convertSitePageToMap` (sites package). -/
def convertSitePageToMap (p : SitePage) : String × GoMap :=
  (p.id.getD ("") , applyAll p.additionalData (applyOptFields (sitePageTypedFields p) mapEmpty))

/-- An identifier-keyed collection of normalized records, as built by the
`usersData` / `applicationsData` / `sitesData` Go maps. -/
def Collection : Type := String → Option GoMap

def collEmpty : Collection := fun _ => none

def collSet (c : Collection) (k : String) (v : GoMap) : Collection :=
  fun k' => if k' = k then some v else c k'

/-- Seed/extend a collection from one page of raw records:
`for _, rec := range page \x7b id, data := convert(rec); coll[id] = data \x7d`. -/
def insertPage {ρ : Type} (convert : ρ → String × GoMap) (recs : List ρ) (c : Collection) : Collection :=
  recs.foldl (fun acc r => collSet acc (convert r).1 (convert r).2) c

/-- Embedding of the pagination loop shared by `users.Get`,
`applications.Get` and `sites.Get`: after the initial page seeds the
collection, the `PageIterator` callback upserts each record of each
continuation page; an iterator error makes the whole function return
`(nil, err)`. The sequence of page-fetch outcomes reached by following
continuation tokens is modelled as the list `rest`. -/
def iteratePages {ρ : Type} (convert : ρ → String × GoMap) :
    List (Except String (List ρ)) → Collection → Except String Collection
  | [], acc => .ok acc
  | .error e :: _, _ => .error e
  | .ok recs :: rest, acc => iteratePages convert rest (insertPage convert recs acc)

/-- Embedding of the whole aggregation (`Get`): fetch the initial page
(its outcome is `first`), seed the collection, then follow the
continuation pages `rest`; any fetch error is returned to the caller
in place of a collection. -/
def aggregate {ρ : Type} (convert : ρ → String × GoMap)
    (first : Except String (List ρ)) (rest : List (Except String (List ρ))) :
    Except String Collection :=
  match first with
  | .error e => .error e
  | .ok recs => iteratePages convert rest (insertPage convert recs collEmpty)

/-- Embedding of the site seeding loop of `sites.Get` (lines 84-87):
`for _, site := range sites \x7b id, siteData := convertSiteToMap(site);
sitesData[id] = siteData \x7d`. -/
def seedSites (sitesList : List Site) : Collection :=
  insertPage convertSiteToMap sitesList collEmpty

/-- Embedding of the per-page body of the pages-enrichment loop of
`sites.Get` (lines 130-138): convert the page, fetch its content in
markdown format, and store the content string on success or the
sentinel `"Error fetching content"` on failure. `contentOf` models
`getPageContent(client, id, pageId, "markdown")` keyed by page id. -/
def enrichOnePage (contentOf : String → Except String String) (p : SitePage) : String × GoMap :=
  let pageId := (convertSitePageToMap p).1
  let pageInfo := (convertSitePageToMap p).2
  match contentOf pageId with
  | .ok c => (pageId, mapSet pageInfo ("content") (GoVal.str c))
  | .error _ => (pageId, mapSet pageInfo ("content") (GoVal.str ("Error fetching content")))

/-- Embedding of the pages-enrichment loop of `sites.Get` (lines
129-139): every page of the site is converted and upserted into
`pageData` under its id, with its content field set per
`enrichOnePage`; the loop itself never fails. -/
def enrichPages (contentOf : String → Except String String) (pages : List SitePage) : Collection :=
  pages.foldl (fun acc p => collSet acc (enrichOnePage contentOf p).1 (enrichOnePage contentOf p).2) collEmpty

/-!
Character-list machinery for `htmlToMarkdown`. Each Go regular
expression used by the source has the restricted shape
`<NAME[^>]*>(.*?)</CLOSE>` (or an open tag alone, or the special
anchor/img/table forms handled below), so each substitution is
reproduced by a scanner with the exact match semantics of the Go
`regexp` package on these patterns: matches are leftmost and
non-overlapping; `[^>]*` (which cannot contain `>`) runs to the first
`>`; the lazy group `(.*?)` captures up to the first occurrence of the
closing literal and, like an unflagged Go `.`, never crosses a
newline.
-/

/-- If `pat` is a literal prefix of `s`, return the remainder of `s`. -/
def takeLead : List Char → List Char → Option (List Char)
  | [], s => some s
  | _, [] => none
  | p :: ps, c :: cs => if c = p then takeLead ps cs else none

/-- `[^>]*>`: consume up to and including the first `>`; fail without one. -/
def skipToGt : List Char → Option (List Char)
  | [] => none
  | c :: cs => if c = '>' then some cs else skipToGt cs

/-- `[^>]*>` keeping the skipped characters (needed to rebuild a full
match for the table stage). -/
def skipToGtKeep : List Char → Option (List Char × List Char)
  | [] => none
  | c :: cs =>
    if c = '>' then some ([], cs)
    else
      match skipToGtKeep cs with
      | some (k, r) => some (c :: k, r)
      | none => none

/-- `(.*?)CLOSE`: capture the minimal newline-free prefix before the
closing literal; return (capture, rest after the close). -/
def lazyCapture (close : List Char) : List Char → Option (List Char × List Char)
  | [] => none
  | c :: cs =>
    match takeLead close (c :: cs) with
    | some rest => some ([], rest)
    | none =>
      if c = '\n' then none
      else
        match lazyCapture close cs with
        | some (g, r) => some (c :: g, r)
        | none => none

/-- `([^"]*)"`: capture greedily to the first double quote. -/
def captureToQuote : List Char → Option (List Char × List Char)
  | [] => none
  | c :: cs =>
    if c = '"' then some ([], cs)
    else
      match captureToQuote cs with
      | some (g, r) => some (c :: g, r)
      | none => none

/-- Greedy `[^>]*NEEDLE`: the regex backtracks from the longest `[^>]*`
run, so the match resumes after the last occurrence of `needle` that
starts before the first `>`. -/
def afterLastNeedle (needle : List Char) : List Char → Option (List Char)
  | [] => none
  | c :: cs =>
    if c = '>' then none
    else
      match afterLastNeedle needle cs with
      | some r => some r
      | none =>
        match takeLead needle (c :: cs) with
        | some r => some r
        | none => none

/-- `ALT1|ALT2` followed by `[^>]*>(.*?)CLOSE`, tried at the current
position (just after a `<`); alternatives are tried left to right as
the Go engine does. Returns (group capture, rest). -/
def tryAltsAt (alts : List (List Char)) (close : List Char) (s : List Char) : Option (List Char × List Char) :=
  match alts with
  | [] => none
  | a :: more =>
    match takeLead a s with
    | some r1 =>
      match skipToGt r1 with
      | some r2 =>
        match lazyCapture close r2 with
        | some gr => some gr
        | none => tryAltsAt more close s
      | none => tryAltsAt more close s
    | none => tryAltsAt more close s

/-- One replacement attempt for ReplaceAllString on a
`<(ALTS)[^>]*>(.*?)CLOSE` pattern: the builder `mk` produces the
replacement text from the group capture. -/
def tagStep (alts : List (List Char)) (close : List Char) (mk : List Char → List Char) (t : List Char) :
    Option (List Char × List Char) :=
  match t with
  | '<' :: rest =>
    match tryAltsAt alts close rest with
    | some (g, r) => some (mk g, r)
    | none => none
  | _ => none

/-- Leftmost non-overlapping scan of ReplaceAllString: at each position
try `step`; on success emit the replacement and resume after the
match, otherwise keep one character and move on. The fuel starts at
the string length; every successful step consumes at least one input
character, so the fuel never runs out on the initial call. -/
def scanRep (step : List Char → Option (List Char × List Char)) : Nat → List Char → List Char
  | 0, s => s
  | _ + 1, [] => []
  | n + 1, c :: cs =>
    match step (c :: cs) with
    | some (rep, rest) => rep ++ scanRep step n rest
    | none => c :: scanRep step n cs

/-- ReplaceAllString for a `<(ALTS)[^>]*>(.*?)CLOSE` regex. -/
def replaceTagGroup (alts : List String) (close : String) (mk : String → String) (s : String) : String :=
  String.mk (scanRep (tagStep (alts.map String.data) close.data (fun g => (mk (String.mk g)).data))
    s.data.length s.data)

/-- Is there any match of a `<(ALTS)[^>]*>(.*?)CLOSE` regex (MatchString)? -/
def hasTagMatch (alts : List String) (close : String) (s : String) : Bool :=
  aux s.data
where
  aux : List Char → Bool
    | [] => false
    | c :: cs =>
      match tagStep (alts.map String.data) close.data id (c :: cs) with
      | some _ => true
      | none => aux cs

/-- ReplaceAllString for an open tag alone (`<NAME[^>]*>`) with a fixed
replacement. -/
def replaceOpenTag (name : String) (rep : String) (s : String) : String :=
  String.mk (scanRep step s.data.length s.data)
where
  step (t : List Char) : Option (List Char × List Char) :=
    match t with
    | '<' :: rest =>
      match takeLead name.data rest with
      | some r1 =>
        match skipToGt r1 with
        | some r2 => some (rep.data, r2)
        | none => none
      | none => none
    | _ => none

/-- `strings.Replace(s, pat, rep, -1)`: replace every occurrence. -/
def replaceAllS (s pat rep : String) : String :=
  String.mk (aux s.data.length s.data)
where
  aux : Nat → List Char → List Char
    | 0, t => t
    | _ + 1, [] => []
    | n + 1, c :: cs =>
      match takeLead pat.data (c :: cs) with
      | some rest => rep.data ++ aux n rest
      | none => c :: aux n cs

/-- `strings.Replace(s, pat, rep, 1)`: replace the first occurrence. -/
def replaceFirstS (s pat rep : String) : String :=
  String.mk (aux s.data)
where
  aux : List Char → List Char
    | [] => []
    | c :: cs =>
      match takeLead pat.data (c :: cs) with
      | some rest => rep.data ++ rest
      | none => c :: aux cs

/-- FindAllStringSubmatch for `<NAME[^>]*>(.*?)CLOSE`: every leftmost
non-overlapping match as (full match, group capture). -/
def findAllTag (name close : String) (s : String) : List (String × String) :=
  aux s.data.length s.data
where
  aux : Nat → List Char → List (String × String)
    | 0, _ => []
    | _ + 1, [] => []
    | n + 1, c :: cs =>
      match c :: cs with
      | '<' :: rest =>
        (match takeLead name.data rest with
         | some r1 =>
           (match skipToGtKeep r1 with
            | some (skipped, r2) =>
              (match lazyCapture close.data r2 with
               | some (g, r) =>
                 ('<' :: (name.data ++ skipped ++ ('>' :: (g ++ close.data))) |> String.mk,
                   String.mk g) :: aux n r
               | none => aux n cs)
            | none => aux n cs)
         | none => aux n cs)
      | _ => aux n cs

/-- Go `strings.TrimSpace` (restricted to the ASCII whitespace actually
reachable here). -/
def isGoSpace (c : Char) : Bool :=
  c = ' ' || c = '\t' || c = '\n' || c = '\r' || c = Char.ofNat 11 || c = Char.ofNat 12

def trimSpaceS (s : String) : String :=
  String.mk (((s.data.dropWhile isGoSpace).reverse.dropWhile isGoSpace).reverse)

/-- `\n\x7b3,\x7d` → exactly two newlines: while scanning, keep at most the
first two newlines of every consecutive run. -/
def collapseNewlines (s : String) : String :=
  String.mk (aux 0 s.data)
where
  aux : Nat → List Char → List Char
    | _, [] => []
    | k, c :: cs =>
      if c = '\n' then
        if k ≥ 2 then aux (k + 1) cs else '\n' :: aux (k + 1) cs
      else c :: aux 0 cs

/-- `html.UnescapeString`, restricted to the named entities relevant to
the embedded fragments (the full HTML5 entity table is data, not
logic); a single left-to-right pass like the Go scanner, so decoded
output is never re-decoded. -/
def unescapeHtml (s : String) : String :=
  String.mk (aux s.data.length s.data)
where
  ents : List (List Char × Char) :=
    [ ("amp;".data, '&'), ("lt;".data, '<'), ("gt;".data, '>'),
      ("quot;".data, '"'), ("#39;".data, Char.ofNat 39),
      ("apos;".data, Char.ofNat 39), ("nbsp;".data, Char.ofNat 160) ]
  tryEnt : List (List Char × Char) → List Char → Option (Char × List Char)
    | [], _ => none
    | (pat, d) :: more, t =>
      match takeLead pat t with
      | some rest => some (d, rest)
      | none => tryEnt more t
  aux : Nat → List Char → List Char
    | 0, t => t
    | _ + 1, [] => []
    | n + 1, c :: cs =>
      if c = '&' then
        match tryEnt ents cs with
        | some (d, rest) => d :: aux n rest
        | none => c :: aux n cs
      else c :: aux n cs

/-- The anchor rule `<a[^>]*href="([^"]*)"[^>]*>(.*?)</a>` → `[$2]($1)`. -/
def replaceAnchors (s : String) : String :=
  String.mk (scanRep step s.data.length s.data)
where
  step (t : List Char) : Option (List Char × List Char) :=
    match t with
    | '<' :: rest =>
      match takeLead ("a").data rest with
      | some r1 =>
        match afterLastNeedle ("href=\"").data r1 with
        | some r2 =>
          match captureToQuote r2 with
          | some (href, r3) =>
            match skipToGt r3 with
            | some r4 =>
              match lazyCapture ("</a>").data r4 with
              | some (txt, r5) =>
                some (('[' :: txt) ++ (']' :: '(' :: href) ++ [')'], r5)
              | none => none
            | none => none
          | none => none
        | none => none
      | none => none
    | _ => none

/-- The image rule `<img[^>]*src="([^"]*)"[^>]*alt="([^"]*)"[^>]*>` →
`![$2]($1)`. -/
def replaceImages (s : String) : String :=
  String.mk (scanRep step s.data.length s.data)
where
  step (t : List Char) : Option (List Char × List Char) :=
    match t with
    | '<' :: rest =>
      match takeLead ("img").data rest with
      | some r1 =>
        match afterLastNeedle ("src=\"").data r1 with
        | some r2 =>
          match captureToQuote r2 with
          | some (src, r3) =>
            match afterLastNeedle ("alt=\"").data r3 with
            | some r4 =>
              match captureToQuote r4 with
              | some (alt, r5) =>
                match skipToGt r5 with
                | some r6 =>
                  some (('!' :: '[' :: alt) ++ (']' :: '(' :: src) ++ [')'], r6)
                | none => none
              | none => none
            | none => none
          | none => none
        | none => none
      | none => none
    | _ => none

/-- Build the Markdown table for one `<table>` match, exactly as the
source does: a `<th>` header row (or synthesized `Column N` headers
from the first row's `<td>` count), one `---` separator per column,
then every `<tr>` (the header row included) emitted as its `<td>`
cells followed by an unconditional `|` newline. -/
def buildMdTable (tableContent : String) : String :=
  let rows := (findAllTag ("tr") ("</tr>") tableContent).map Prod.snd
  let headerPart :=
    match rows with
    | [] => ""
    | r0 :: _ =>
      let headerCells := (findAllTag ("th") ("</th>") r0).map Prod.snd
      if headerCells ≠ [] then
        String.join (headerCells.map (fun c => "| " ++ trimSpaceS c ++ " ")) ++ "|\n" ++
          String.join (headerCells.map (fun _ => "| --- ")) ++ "|\n"
      else
        let firstRowCells := (findAllTag ("td") ("</td>") r0).map Prod.snd
        String.join ((List.range firstRowCells.length).map
          (fun i => "| Column " ++ toString (i + 1) ++ " ")) ++ "|\n" ++
          String.join (firstRowCells.map (fun _ => "| --- ")) ++ "|\n"
  let dataPart :=
    String.join (rows.map (fun row =>
      String.join (((findAllTag ("td") ("</td>") row).map Prod.snd).map
        (fun c => "| " ++ trimSpaceS c ++ " ")) ++ "|\n"))
  headerPart ++ dataPart

/-- The table stage: find every `<table[^>]*>(.*?)</table>` match in
the incoming string, then replace each full match (first occurrence)
by its Markdown rendering, in order. -/
def replaceTables (s : String) : String :=
  (findAllTag ("table") ("</table>") s).foldl
    (fun acc m => replaceFirstS acc m.1 (buildMdTable m.2)) s

/-- The div/span unwrap loop. The close literal of the source pattern
`<(div|span)[^>]*>(.*?)</\\1>` is, inside a Go raw string, the literal
five characters `< / \ 1 >` (Go RE2 has no backreferences), so the
loop body only fires on strings containing that literal text. Every
replacement round strictly shrinks the string, so a fuel of the
string length bounds the iteration. -/
def divSpanLoop (s : String) : String :=
  aux (s.data.length + 1) s
where
  close : String := "</\\1>"
  aux : Nat → String → String
    | 0, t => t
    | n + 1, t =>
      if hasTagMatch ["div", "span"] close t then
        aux n (replaceTagGroup ["div", "span"] close (fun g => g) t)
      else t

/-- The final tag stripper `<[^>]*>` → empty string. -/
def stripTags (s : String) : String :=
  String.mk (scanRep step s.data.length s.data)
where
  step (t : List Char) : Option (List Char × List Char) :=
    match t with
    | '<' :: rest =>
      match skipToGt rest with
      | some r => some ([], r)
      | none => none
    | _ => none

/-- Embedding of `htmlToMarkdown` (sites package): the ordered cascade
of substitutions of the source, stage by stage. The bold, italic and
div/span close patterns are the literal text `</\1>` (see
`divSpanLoop`), so those stages only fire on inputs containing that
literal. -/
def htmlToMarkdown (htmlContent : String) : String :=
  let u := unescapeHtml htmlContent
  let u := replaceTagGroup ["h1"] ("</h1>") (fun g => "# " ++ g ++ "\n\n") u
  let u := replaceTagGroup ["h2"] ("</h2>") (fun g => "## " ++ g ++ "\n\n") u
  let u := replaceTagGroup ["h3"] ("</h3>") (fun g => "### " ++ g ++ "\n\n") u
  let u := replaceTagGroup ["h4"] ("</h4>") (fun g => "#### " ++ g ++ "\n\n") u
  let u := replaceTagGroup ["p"] ("</p>") (fun g => g ++ "\n\n") u
  let u := replaceTagGroup ["b", "strong"] ("</\\1>") (fun g => "**" ++ g ++ "**") u
  let u := replaceTagGroup ["i", "em"] ("</\\1>") (fun g => "*" ++ g ++ "*") u
  let u := replaceAnchors u
  let u := replaceAllS u ("<ul>") ("\n")
  let u := replaceAllS u ("</ul>") ("\n")
  let u := replaceTagGroup ["li"] ("</li>") (fun g => "- " ++ g ++ "\n") u
  let u := replaceAllS u ("<ol>") ("\n")
  let u := replaceAllS u ("</ol>") ("\n")
  let u := replaceTagGroup ["li"] ("</li>") (fun g => "1. " ++ g ++ "\n") u
  let u := replaceImages u
  let u := replaceTables u
  let u := replaceTagGroup ["pre"] ("</pre>") (fun g => "```\n" ++ g ++ "\n```\n\n") u
  let u := replaceTagGroup ["code"] ("</code>") (fun g => "`" ++ g ++ "`") u
  let u := replaceTagGroup ["blockquote"] ("</blockquote>") (fun g => "> " ++ g ++ "\n\n") u
  let u := replaceOpenTag ("hr") ("---\n\n") u
  let u := divSpanLoop u
  let u := replaceOpenTag ("br") ("\n") u
  let u := stripTags u
  let u := trimSpaceS u
  collapseNewlines u

/-- A content block (`models.WebPartable`): a structured backing store
(`GetBackingStore()`, nil-able) and the open additional-fields bag
(`GetAdditionalData()`, nil-able). -/
structure WebPart where
  backingStore : Option (List (String × GoVal))
  additionalData : Option (List (String × GoVal))

/-- The scan over the `data` mapping: the fixed field list is walked in
order and the first field present with a non-empty string value wins
(a present non-string or empty-string field does not stop the scan);
returns the matched field name with its value. -/
def dataFieldScan : List String → List (String × GoVal) → Option (String × String)
  | [], _ => none
  | f :: fs, m =>
    match List.lookup f m with
    | some (GoVal.str v) => if v = "" then dataFieldScan fs m else some (f, v)
    | _ => dataFieldScan fs m

/-- The additional-fields part of the markdown-mode content chain,
duplicated verbatim in the source for the horizontal-section and
vertical-section branches: `innerHtml` (HTML-converted), then `text`
(verbatim), then `data` (mapping scanned by `dataFieldScan`, its
`html` field HTML-converted and the rest verbatim; a non-empty plain
string emitted verbatim). Each hit is written followed by a blank
line. -/
def resolveAdditionalMd (ad : List (String × GoVal)) : Option String :=
  match List.lookup ("innerHtml") ad with
  | some (GoVal.str s) => some (htmlToMarkdown s ++ "\n\n")
  | _ =>
    match List.lookup ("text") ad with
    | some (GoVal.str t) => some (t ++ "\n\n")
    | _ =>
      match List.lookup ("data") ad with
      | some (GoVal.map dm) =>
        (match dataFieldScan ["text", "content", "value", "description", "html"] dm with
         | some (f, v) => some ((if f = "html" then htmlToMarkdown v else v) ++ "\n\n")
         | none => none)
      | some (GoVal.str ds) => if ds = "" then none else some (ds ++ "\n\n")
      | _ => none

/-- Markdown-mode content resolution for a block inside a
horizontal-section column (lines 447-540): the backing-store
`innerHtml` (when present as a string) is HTML-converted and wins;
otherwise the additional-fields chain runs. -/
def resolveWebPartHorizMd (wp : WebPart) : Option String :=
  match wp.backingStore with
  | some bs =>
    (match List.lookup ("innerHtml") bs with
     | some (GoVal.str s) => some (htmlToMarkdown s ++ "\n\n")
     | _ => wp.additionalData.bind resolveAdditionalMd)
  | none => wp.additionalData.bind resolveAdditionalMd

/-- Markdown-mode content resolution for a block in the vertical
section (lines 598-673): the source consults only the
additional-fields bag there — the backing store is not read. -/
def resolveWebPartVertMd (wp : WebPart) : Option String :=
  wp.additionalData.bind resolveAdditionalMd

/-- A column of a horizontal section (`GetWebparts()` nil-able). -/
structure PageColumn where
  webparts : Option (List WebPart)

/-- A horizontal section (`GetColumns()` nil-able; the layout field is
only read in plain mode). -/
structure HorizSection where
  columns : Option (List PageColumn)

/-- The vertical section (`GetWebparts()` nil-able). -/
structure VertSection where
  webparts : Option (List WebPart)

/-- A canvas layout: horizontal sections plus an optional vertical
section. -/
structure CanvasLayout where
  horizontalSections : Option (List HorizSection)
  verticalSection : Option VertSection

/-- A page definition fetched with its canvas layout expanded. -/
structure PageDef where
  title : Option String
  description : Option String
  canvasLayout : Option CanvasLayout

/-- Markdown-mode body text of one column: blocks in order, a block
without resolvable content contributing nothing. -/
def renderColumnMd (col : PageColumn) : String :=
  match col.webparts with
  | none => ""
  | some wps => String.join (wps.map (fun wp => (resolveWebPartHorizMd wp).getD ("")))

/-- Markdown-mode body text of one horizontal section: columns in order. -/
def renderSectionMd (sec : HorizSection) : String :=
  match sec.columns with
  | none => ""
  | some cols => String.join (cols.map renderColumnMd)

/-- Embedding of `getPageContent` in markdown mode, with
`debugging = false` (so every debugging write in the source is dead
code): the page fetch outcome is the argument; on success the title
(as a level-2 heading), the description (italicized), the horizontal
sections in order and then the vertical section are concatenated; if
nothing at all was written the fixed fallback string is returned as a
non-error outcome. -/
def getPageContentMarkdown (fetched : Except String PageDef) : Except String String :=
  match fetched with
  | .error e => .error ("error getting page content: " ++ e)
  | .ok page =>
    let content :=
      (match page.title with
       | some t => "## " ++ t ++ "\n\n"
       | none => "") ++
      (match page.description with
       | some d => "*" ++ d ++ "*\n\n"
       | none => "") ++
      (match page.canvasLayout with
       | none => ""
       | some cl =>
         (match cl.horizontalSections with
          | none => ""
          | some secs => String.join (secs.map renderSectionMd)) ++
         (match cl.verticalSection with
          | none => ""
          | some vs =>
            match vs.webparts with
            | none => ""
            | some wps => String.join (wps.map (fun wp => (resolveWebPartVertMd wp).getD ("")))))
    if content = "" then
      .ok ("*No detailed content available. Use the page URL to view in browser.*")
    else
      .ok content

/-! Helper lemmas about the map and fold combinators. -/

theorem collSet_same (c : Collection) (k : String) (v : GoMap) : collSet c k v k = some v := by
  simp [collSet]

theorem collSet_other (c : Collection) (k k' : String) (v : GoMap) (h : k' ≠ k) :
    collSet c k v k' = c k' := by
  simp [collSet, h]

theorem applyAll_nil (m : GoMap) : applyAll [] m = m := rfl

theorem foldl_collSet_skip {α : Type} (f : α → String × GoMap) (l : List α) (acc : Collection)
    (k : String) (h : ∀ q ∈ l, (f q).1 ≠ k) :
    l.foldl (fun a q => collSet a (f q).1 (f q).2) acc k = acc k := by
  induction l generalizing acc with
  | nil => rfl
  | cons q rest ih =>
    rw [List.foldl_cons, ih _ (fun r hr => h r (List.mem_cons_of_mem q hr))]
    exact collSet_other acc (f q).1 k (f q).2 (fun hk => h q (List.mem_cons_self q rest) hk.symm)

theorem foldl_collSet_lastWrite {α : Type} (f : α → String × GoMap) (l₁ l₂ : List α) (p : α)
    (acc : Collection) (h : ∀ q ∈ l₂, (f q).1 ≠ (f p).1) :
    (l₁ ++ p :: l₂).foldl (fun a q => collSet a (f q).1 (f q).2) acc (f p).1 = some (f p).2 := by
  rw [List.foldl_append, List.foldl_cons, foldl_collSet_skip f l₂ _ _ h]
  exact collSet_same _ (f p).1 (f p).2

theorem foldl_collSet_onlyKey {α : Type} (f : α → String × GoMap) (l : List α) (acc : Collection)
    (hkeys : ∀ q ∈ l, (f q).1 = "") (hacc : ∀ k, acc k ≠ none → k = "") :
    ∀ k, l.foldl (fun a q => collSet a (f q).1 (f q).2) acc k ≠ none → k = "" := by
  induction l generalizing acc with
  | nil => exact hacc
  | cons q rest ih =>
    refine ih _ (fun r hr => hkeys r (List.mem_cons_of_mem q hr)) ?_
    intro k hk
    replace hk : collSet acc (f q).1 (f q).2 k ≠ none := hk
    by_cases hkq : k = (f q).1
    · exact hkq.trans (hkeys q (List.mem_cons_self q rest))
    · exact hacc k (by rwa [collSet_other _ _ _ _ hkq] at hk)

theorem iteratePages_error {ρ : Type} (convert : ρ → String × GoMap)
    (pre post : List (Except String (List ρ))) (e : String) (acc : Collection)
    (h : ∀ q ∈ pre, ∃ l, q = .ok l) :
    iteratePages convert (pre ++ .error e :: post) acc = .error e := by
  induction pre generalizing acc with
  | nil => rfl
  | cons q rest ih =>
    obtain ⟨l, rfl⟩ := h q (List.mem_cons_self q rest)
    exact ih _ (fun r hr => h r (List.mem_cons_of_mem _ hr))

theorem enrichOnePage_fst (contentOf : String → Except String String) (p : SitePage) :
    (enrichOnePage contentOf p).1 = (convertSitePageToMap p).1 := by
  unfold enrichOnePage
  cases h : contentOf (convertSitePageToMap p).1 <;> simp [h]

/-! Claim theorems. -/

/-- C2: the spec says each `<ol>` list item is emitted with the literal
prefix `1. `; on the code, the unordered-list item rule (which runs
first and is not scoped to `<ul>` containers) consumes every
`<li>...</li>` pair, so items of an ordered list come out with the
`- ` prefix and the dedicated `1. ` rule is dead code. -/
theorem orderedList_items_get_dash_marker :
    htmlToMarkdown ("<ol><li>Item</li></ol>") = "- Item" := by decide

/-- C3: the spec says `<b>`/`<strong>` render as `**content**` and
`<i>`/`<em>` as `*content*`; on the code, the close patterns are the
literal text `</\1>` (a Go raw string `</\\1>` under RE2, which has no
backreferences), so the bold and italic rules never match real HTML
and the final tag stripper just removes the markers. -/
theorem bold_italic_tags_stripped :
    htmlToMarkdown ("<b>Bold</b>") = "Bold" ∧
    htmlToMarkdown ("<strong>Str</strong>") = "Str" ∧
    htmlToMarkdown ("<i>Ital</i>") = "Ital" ∧
    htmlToMarkdown ("<em>Em</em>") = "Em" := by
  refine ⟨?_, ?_, ?_, ?_⟩ <;> decide

/-- C9 (counterexample): the transducer applied to `<h2>Title</h2>`
does not produce `## Title\n\n` — the final trim stage removes the
trailing blank line. -/
theorem heading_conversion_counterexample :
    htmlToMarkdown ("<h2>Title</h2>") ≠ "## Title\n\n" := by decide

/-- C9 (amended): the transducer applied to `<h2>Title</h2>` produces
`## Title`: the heading stage emits `## Title\n\n` and the final
trim stage then strips the trailing newlines. -/
theorem heading_conversion_amended :
    htmlToMarkdown ("<h2>Title</h2>") = "## Title" := by decide

/-- C5: if fetching any continuation page fails, the aggregation
returns the error and no collection at all — records gathered from
the initial page and the earlier continuation pages are discarded. -/
theorem aggregation_abort_discards_partial {ρ : Type} (convert : ρ → String × GoMap)
    (first : List ρ) (pre post : List (Except String (List ρ))) (e : String)
    (h : ∀ q ∈ pre, ∃ l, q = .ok l) :
    aggregate convert (.ok first) (pre ++ .error e :: post) = .error e := by
  unfold aggregate
  exact iteratePages_error convert pre post e _ h

theorem aggregation_abort_discards_partial_witness :
    aggregate convertSiteToMap (.ok []) ([] ++ .error ("boom") :: []) = .error ("boom") :=
  aggregation_abort_discards_partial convertSiteToMap [] [] [] ("boom") (by simp)

/-- C10: a site record without an identifier normalizes to the empty
identifier, is stored under the key `""`, and any number of
identifier-less records on one run collapse into that single entry
with the last-processed record winning. -/
theorem missing_site_id_collapses (l : List Site) (s : Site)
    (hl : ∀ t ∈ l, t.id = none) (hs : s.id = none) :
    (convertSiteToMap s).1 = "" ∧
    seedSites (l ++ [s]) ("") = some (convertSiteToMap s).2 ∧
    (∀ k, seedSites (l ++ [s]) k ≠ none → k = "") := by
  have key : ∀ t : Site, t.id = none → (convertSiteToMap t).1 = "" := by
    intro t ht
    show t.id.getD ("") = ""
    rw [ht]
    rfl
  refine ⟨key s hs, ?_, ?_⟩
  · have hlast := foldl_collSet_lastWrite convertSiteToMap l [] s collEmpty (by simp)
    rw [key s hs] at hlast
    exact hlast
  · refine foldl_collSet_onlyKey convertSiteToMap (l ++ [s]) collEmpty ?_ ?_
    · intro q hq
      rcases List.mem_append.mp hq with h1 | h2
      · exact key q (hl q h1)
      · have hq2 : q = s := by simpa using h2
        exact key q (hq2 ▸ hs)
    · intro k hk
      exact absurd rfl hk

theorem missing_site_id_collapses_witness :
    (convertSiteToMap ⟨none, some ("B"), none, none, none, none, none, []⟩).1 = "" ∧
    seedSites ([⟨none, some ("A"), none, none, none, none, none, []⟩] ++
        [⟨none, some ("B"), none, none, none, none, none, []⟩]) ("")
      = some (convertSiteToMap ⟨none, some ("B"), none, none, none, none, none, []⟩).2 :=
  have h := missing_site_id_collapses [⟨none, some ("A"), none, none, none, none, none, []⟩]
    ⟨none, some ("B"), none, none, none, none, none, []⟩ (by simp) rfl
  ⟨h.1, h.2.1⟩

/-- C4: during bulk site enrichment, every page of the site gets its own
entry in the output mapping; the entry's content field carries the
fetched document on success and the literal sentinel
`"Error fetching content"` when the fetch for that page failed, and a
failure never prevents the other pages from being processed (the
statement covers an arbitrary page of an arbitrary page list under an
arbitrary fetch oracle). -/
theorem page_content_failure_sentinel (contentOf : String → Except String String)
    (l₁ l₂ : List SitePage) (p : SitePage)
    (h : ∀ q ∈ l₂, (convertSitePageToMap q).1 ≠ (convertSitePageToMap p).1) :
    enrichPages contentOf (l₁ ++ p :: l₂) ((convertSitePageToMap p).1)
      = some (enrichOnePage contentOf p).2 ∧
    (∀ e, contentOf ((convertSitePageToMap p).1) = .error e →
      (enrichOnePage contentOf p).2 ("content") = some (GoVal.str ("Error fetching content"))) ∧
    (∀ c, contentOf ((convertSitePageToMap p).1) = .ok c →
      (enrichOnePage contentOf p).2 ("content") = some (GoVal.str c)) := by
  refine ⟨?_, ?_, ?_⟩
  · have hlast := foldl_collSet_lastWrite (enrichOnePage contentOf) l₁ l₂ p collEmpty
      (fun q hq => by
        rw [enrichOnePage_fst, enrichOnePage_fst]
        exact h q hq)
    rw [enrichOnePage_fst] at hlast
    exact hlast
  · intro e he
    simp [enrichOnePage, he, mapSet]
  · intro c hc
    simp [enrichOnePage, hc, mapSet]

theorem page_content_failure_sentinel_witness :
    enrichPages (fun _ => Except.error ("x"))
        ([] ++ (⟨some ("p1"), none, none, none, []⟩ : SitePage) :: [])
        ((convertSitePageToMap ⟨some ("p1"), none, none, none, []⟩).1)
      = some (enrichOnePage (fun _ => Except.error ("x")) ⟨some ("p1"), none, none, none, []⟩).2 ∧
    (enrichOnePage (fun _ => Except.error ("x")) ⟨some ("p1"), none, none, none, []⟩).2 ("content")
      = some (GoVal.str ("Error fetching content")) :=
  have h := page_content_failure_sentinel (fun _ => Except.error ("x")) [] []
    ⟨some ("p1"), none, none, none, []⟩ (by simp)
  ⟨h.1, h.2.1 ("x") rfl⟩

/-- C1 (counterexample): for a block in the vertical section exposing
both a backing-store `innerHtml` of `<p>A</p>` and an
additional-fields `text` of `B`, the code resolves to `B` (the text
value): the vertical-section branch never consults the backing
store, so the claimed precedence does not hold there. -/
theorem resolver_precedence_counterexample :
    resolveWebPartVertMd ⟨some [(("innerHtml"), GoVal.str ("<p>A</p>"))],
        some [(("text"), GoVal.str ("B"))]⟩ = some ("B\n\n") ∧
    ("B\n\n" : String) ≠ htmlToMarkdown ("<p>A</p>") ++ "\n\n" :=
  ⟨rfl, by decide⟩

/-- C1 (amended): for a block in a horizontal-section column, a
backing-store `innerHtml` string wins over everything else and is
HTML-converted in markdown mode; for a block in the vertical section
the backing store is not consulted — there resolution starts at the
additional-fields `innerHtml`, so a block without that key but with
a `text` key resolves to the text value. -/
theorem resolver_precedence_amended (wp wp' : WebPart) (bs ad : List (String × GoVal))
    (s t : String)
    (h1 : wp.backingStore = some bs)
    (h2 : List.lookup ("innerHtml") bs = some (GoVal.str s))
    (h3 : wp'.additionalData = some ad)
    (h4 : List.lookup ("innerHtml") ad = none)
    (h5 : List.lookup ("text") ad = some (GoVal.str t)) :
    resolveWebPartHorizMd wp = some (htmlToMarkdown s ++ "\n\n") ∧
    resolveWebPartVertMd wp' = some (t ++ "\n\n") := by
  constructor
  · simp [resolveWebPartHorizMd, h1, h2]
  · simp [resolveWebPartVertMd, resolveAdditionalMd, h3, h4, h5]

theorem resolver_precedence_amended_witness :
    resolveWebPartHorizMd ⟨some [(("innerHtml"), GoVal.str ("<p>A</p>"))],
        some [(("text"), GoVal.str ("B"))]⟩
      = some (htmlToMarkdown ("<p>A</p>") ++ "\n\n") ∧
    resolveWebPartVertMd ⟨none, some [(("text"), GoVal.str ("B"))]⟩ = some ("B" ++ "\n\n") :=
  resolver_precedence_amended _ _ _ _ ("<p>A</p>") ("B") rfl rfl rfl rfl rfl

/-- C7 (counterexample): a page whose canvas layout has no sections and
no vertical-section blocks but which carries a title does not render
to the fallback string — the title heading is the content. -/
theorem no_content_fallback_counterexample :
    getPageContentMarkdown (.ok ⟨some ("T"), none, some ⟨none, none⟩⟩) = .ok ("## T\n\n") ∧
    ("## T\n\n" : String) ≠ "*No detailed content available. Use the page URL to view in browser.*" :=
  ⟨rfl, by decide⟩

/-- C7 (amended): a page with no title and no description whose canvas
layout has no horizontal sections and no vertical-section web parts
renders, in markdown mode, to exactly the fallback string, returned
as a non-error outcome. -/
theorem no_content_fallback_amended (page : PageDef) (cl : CanvasLayout)
    (h1 : page.title = none) (h2 : page.description = none)
    (h3 : page.canvasLayout = some cl)
    (h4 : cl.horizontalSections = none ∨ cl.horizontalSections = some [])
    (h5 : cl.verticalSection = none ∨
      ∃ vs, cl.verticalSection = some vs ∧ (vs.webparts = none ∨ vs.webparts = some [])) :
    getPageContentMarkdown (.ok page)
      = .ok ("*No detailed content available. Use the page URL to view in browser.*") := by
  obtain ⟨t, d, c⟩ := page
  replace h1 : t = none := h1
  replace h2 : d = none := h2
  replace h3 : c = some cl := h3
  subst h1
  subst h2
  subst h3
  obtain ⟨hsecs, vsec⟩ := cl
  rcases h5 with h5 | ⟨vs, hvs, hw⟩
  · replace h5 : vsec = none := h5
    subst h5
    rcases h4 with h4 | h4 <;>
      (replace h4 : hsecs = _ := h4
       subst h4
       rfl)
  · replace hvs : vsec = some vs := hvs
    subst hvs
    obtain ⟨wps⟩ := vs
    rcases hw with hw | hw <;>
      (replace hw : wps = _ := hw
       subst hw
       rcases h4 with h4 | h4 <;>
         (replace h4 : hsecs = _ := h4
          subst h4
          rfl))

theorem no_content_fallback_amended_witness :
    getPageContentMarkdown (.ok ⟨none, none, some ⟨none, none⟩⟩)
      = .ok ("*No detailed content available. Use the page URL to view in browser.*") :=
  no_content_fallback_amended ⟨none, none, some ⟨none, none⟩⟩ ⟨none, none⟩
    rfl rfl rfl (Or.inl rfl) (Or.inl rfl)
